import Mathlib

/-!
# Verification of the frame-kit timing / duration-negotiation / animation core

Shallow embedding of the timing core of the frame-kit video-composition
engine.  Times, durations and property values are modelled as rationals
(Python floats in the source carry exact decimal literals in every program
point the claims touch, so exact arithmetic is the faithful reading of the
timing contracts).

Embedded source files:
* `audio_element.py`   — `AudioElement` (volume, fades, mute, effective volume)
* `video_base.py`      — `VideoBase` (timing, visibility, animation attachment,
                         animated-property evaluation and write-back)
* `video_element.py`   — `VideoElement` (derived audio track synchronization,
                         loop-until-scene-end duration update)
* `src/scene.py`       — the BGM-aware `Scene` (two-phase duration negotiation)
* `scene.py`           — the plain `Scene` (no loop-element exclusion)
* `master_scene.py`    — `MasterScene` (total duration, frame loop)

The repository's `animation.py` module (classes `Animation`,
`RepeatingAnimation`, `AnimationManager`) and the BGM-aware
`audio_element.py` (method `update_duration_for_scene`,
attribute `loop_until_scene_end`) are imported and called by the sources
above but are not part of the source snapshot; those parts are modelled
from the specification and marked `Modelled from the spec:` below.
-/

namespace FrameKit

/-- Truncation toward zero, Python's `int(float)` conversion on a rational. -/
def pyInt (q : ℚ) : ℤ := if 0 ≤ q then ⌊q⌋ else ⌈q⌉

/-! ## Animation module (`animation.py`, modelled from the spec)

`animation.py` is imported by `video_base.py` (`from animation import
Animation, AnimationManager, RepeatingAnimation`) and by the test suite, but
the file itself is not in the source snapshot.  The definitions in this
section are therefore modelled from the spec (§3, §4.2, §4.3, §4.4). -/

/-- The fixed animatable-property vocabulary (spec §3): string keys in the
source, a closed enumeration here. -/
inductive PropName where
  | x | y | alpha | scale | rotation | color | corner_radius
deriving DecidableEq, Repr

/-- Modelled from the spec: an `Animation` (§3) binds a value range to a
`(start_time, delay, duration)` window.  The claims under verification never
inspect a non-linear curve, so the curve is taken linear; every statement
below depends only on the windowing (§4.2), not on the curve family. -/
structure Anim where
  start_time : ℚ
  delay : ℚ
  duration : ℚ
  from_value : ℚ
  to_value : ℚ
deriving DecidableEq, Repr

/-- Modelled from the spec: `progress(t) = clamp((t − start_time − delay) /
duration, 0, 1)` (§4.2). -/
def Anim.progress (a : Anim) (t : ℚ) : ℚ :=
  max 0 (min 1 ((t - a.start_time - a.delay) / a.duration))

/-- Modelled from the spec: the sampled value at time `t`, linear
interpolation from `from_value` to `to_value` at the clamped progress. -/
def Anim.valueAt (a : Anim) (t : ℚ) : ℚ :=
  a.from_value + (a.to_value - a.from_value) * a.progress t

/-- Modelled from the spec: an `Animation` is inactive (contributes nothing)
while `t < start_time + delay`; from then on it is active or holds its
terminal value forever (§4.2, §4.4). -/
def Anim.started (a : Anim) (t : ℚ) : Bool :=
  a.start_time + a.delay ≤ t

/-- Repeat modes of a `RepeatingAnimation` (§3). -/
inductive RepeatMode where
  | restart | reverse | continue_
deriving DecidableEq, Repr

/-- Modelled from the spec: `RepeatingAnimation` (§3) wraps one base
`Animation` with a repetition policy.  `scene_duration` is optional; `none`
is the unresolved state. -/
structure RepAnim where
  base : Anim
  repeat_count : ℤ
  repeat_delay : ℚ
  repeat_mode : RepeatMode
  until_scene_end : Bool
  scene_duration : Option ℚ
  start_time : ℚ
deriving DecidableEq, Repr

/-- Modelled from the spec: constructing a `RepeatingAnimation` takes its
window start from the base animation; the attachment helpers in
`video_base.py` then offset `start_time` by the element's start time. -/
def RepAnim.mk' (base : Anim) (repeat_count : ℤ) (repeat_delay : ℚ)
    (repeat_mode : RepeatMode) (until_scene_end : Bool := false)
    (scene_duration : Option ℚ := none) : RepAnim :=
  { base := base
    repeat_count := repeat_count
    repeat_delay := repeat_delay
    repeat_mode := repeat_mode
    until_scene_end := until_scene_end
    scene_duration := scene_duration
    start_time := base.start_time }

/-- Modelled from the spec: period of one repetition, `base.duration +
repeat_delay` (§4.3). -/
def RepAnim.period (r : RepAnim) : ℚ := r.base.duration + r.repeat_delay

/-- Modelled from the spec (§4.3, §4.4): a repeating animation has started at
`t` when `start_time ≤ t`; an `until_scene_end` animation whose
`scene_duration` is still unresolved reports itself inactive. -/
def RepAnim.started (r : RepAnim) (t : ℚ) : Bool :=
  if r.until_scene_end ∧ r.scene_duration = none then false
  else r.start_time ≤ t

/-- Modelled from the spec: upper end of the active window relative to
`start_time` (§4.3): `scene_duration` for `until_scene_end`, `N × period`
for finite `repeat_count = N`, unbounded (`none`) for infinite repeats. -/
def RepAnim.relBound (r : RepAnim) : Option ℚ :=
  if r.until_scene_end then r.scene_duration
  else if r.repeat_count < 0 then none
  else some (r.repeat_count * r.period)

/-- Modelled from the spec: sampled value of a repeating animation at `t`
(§4.3).  The elapsed time is capped at the window bound (the animation holds
the value of the just-completed repetition afterwards, §4.4); the repeat
index is `k = ⌊elapsed / period⌋`; `restart` replays the base each period,
`reverse` swaps the value range on odd `k`, `continue` offsets the range by
`k` times the value span. -/
def RepAnim.valueAt (r : RepAnim) (t : ℚ) : ℚ :=
  let rel := t - r.start_time
  let rel := match r.relBound with
    | some b => min rel b
    | none => rel
  let k : ℤ := if r.period ≤ 0 then 0 else ⌊rel / r.period⌋
  let local_ := rel - k * r.period
  let u := max 0 (min 1 (local_ / r.base.duration))
  let span := r.base.to_value - r.base.from_value
  match r.repeat_mode with
  | .restart => r.base.from_value + span * u
  | .reverse =>
      if k % 2 = 1 then r.base.to_value - span * u
      else r.base.from_value + span * u
  | .continue_ => r.base.from_value + k * span + span * u

/-- An entry of an `AnimationManager` list: a plain `Animation` or a
`RepeatingAnimation`. -/
inductive AnimEntry where
  | base (a : Anim)
  | rep (r : RepAnim)
deriving DecidableEq, Repr

/-- Whether a manager entry has started at `t` (spec §4.4 activation check). -/
def AnimEntry.started : AnimEntry → ℚ → Bool
  | .base a, t => a.started t
  | .rep r, t => r.started t

/-- Sampled value of a manager entry at `t`. -/
def AnimEntry.valueAt : AnimEntry → ℚ → ℚ
  | .base a, t => a.valueAt t
  | .rep r, t => r.valueAt t

/-- Modelled from the spec: `AnimationManager` — per-property insertion-ordered
lists of animations (§3). -/
structure AnimMgr where
  animations : List (PropName × AnimEntry)
deriving DecidableEq, Repr

/-- The empty manager (`AnimationManager()`). -/
def AnimMgr.empty : AnimMgr := ⟨[]⟩

/-- `AnimationManager.add_animation`: appends in insertion order. -/
def AnimMgr.addAnimation (m : AnimMgr) (p : PropName) (e : AnimEntry) : AnimMgr :=
  ⟨m.animations ++ [(p, e)]⟩

/-- Modelled from the spec: `AnimationManager.get_animated_value(property, t,
base)` (§4.4) — scan the property's animations in reverse insertion order,
return the sample of the first one that has started at `t`; if none applies,
return the base value unchanged. -/
def AnimMgr.getAnimatedValue (m : AnimMgr) (p : PropName) (t : ℚ) (base : ℚ) : ℚ :=
  match ((m.animations.filter (fun pe => pe.1 = p)).reverse.find?
      (fun pe => pe.2.started t)) with
  | some pe => pe.2.valueAt t
  | none => base

/-- Modelled from the spec (§4.5): resolving a scene duration into one
manager entry — an `until_scene_end` `RepeatingAnimation` receives the
resolved value as its `scene_duration`; every other entry is untouched. -/
def AnimEntry.resolveSceneDuration (sd : ℚ) : AnimEntry → AnimEntry
  | .base a => .base a
  | .rep r =>
      if r.until_scene_end then .rep { r with scene_duration := some sd }
      else .rep r

/-- Modelled from the spec (§4.5): "the resolved `scene.duration` is also
propagated into any `until_scene_end` RepeatingAnimation owned by that
element" — resolve every entry of the manager. -/
def AnimMgr.resolveSceneDuration (m : AnimMgr) (sd : ℚ) : AnimMgr :=
  ⟨m.animations.map (fun pe => (pe.1, pe.2.resolveSceneDuration sd))⟩

/-! ## AudioElement (`audio_element.py`) -/

/-- State of an `AudioElement` (a `VideoBase` subclass, so it owns an
`AnimationManager` like every element).  Fields `loop_until_scene_end` and
`original_duration` belong to the BGM-aware revision of `audio_element.py`
(referenced by `src/scene.py` and the BGM tests but absent from the
snapshot); they are modelled from the spec (§3, §4.5). -/
structure AudioSt where
  start_time : ℚ
  duration : ℚ
  volume : ℚ
  original_volume : ℚ
  fade_in_duration : ℚ
  fade_out_duration : ℚ
  is_muted : Bool
  loop_until_scene_end : Bool
  original_duration : ℚ
  animation_manager : AnimMgr
deriving DecidableEq, Repr

/-- `AudioElement.__init__(audio_path, volume=1.0)`: timing starts at 0, the
duration comes from the media probe (`_load_audio_info`, passed here as the
parameter `probed`), fades are 0, the element is not muted and its
animation manager is empty. -/
def AudioSt.init (probed : ℚ) (volume : ℚ := 1) : AudioSt :=
  { start_time := 0
    duration := probed
    volume := volume
    original_volume := volume
    fade_in_duration := 0
    fade_out_duration := 0
    is_muted := false
    loop_until_scene_end := false
    original_duration := probed
    animation_manager := AnimMgr.empty }

/-- `AudioElement.set_volume`: clamps to `[0, 1]` and records it as the
original volume as well. -/
def AudioSt.setVolume (a : AudioSt) (v : ℚ) : AudioSt :=
  let c := max 0 (min 1 v)
  { a with volume := c, original_volume := c }

/-- `AudioElement.set_fade_in`. -/
def AudioSt.setFadeIn (a : AudioSt) (d : ℚ) : AudioSt :=
  { a with fade_in_duration := max 0 d }

/-- `AudioElement.set_fade_out`. -/
def AudioSt.setFadeOut (a : AudioSt) (d : ℚ) : AudioSt :=
  { a with fade_out_duration := max 0 d }

/-- `AudioElement.mute`. -/
def AudioSt.muteA (a : AudioSt) : AudioSt := { a with is_muted := true }

/-- `AudioElement.unmute`. -/
def AudioSt.unmuteA (a : AudioSt) : AudioSt := { a with is_muted := false }

/-- `AudioElement.start_at` (inherited `VideoBase.start_at`). -/
def AudioSt.startAt (a : AudioSt) (t : ℚ) : AudioSt := { a with start_time := t }

/-- `AudioElement.set_duration` (inherited `VideoBase.set_duration`). -/
def AudioSt.setDuration (a : AudioSt) (d : ℚ) : AudioSt := { a with duration := d }

/-- `AudioElement.get_effective_volume(audio_time)`: 0 when muted, otherwise
the configured volume scaled by the fade-in factor (when inside the fade-in
window) and the fade-out factor (when past `duration - fade_out_duration`),
clamped to `[0, 1]` at the end. -/
def AudioSt.getEffectiveVolume (a : AudioSt) (audio_time : ℚ) : ℚ :=
  if a.is_muted then 0
  else
    let v1 := a.volume
    let v2 := if 0 < a.fade_in_duration ∧ audio_time < a.fade_in_duration then
        v1 * (audio_time / a.fade_in_duration) else v1
    let v3 := if 0 < a.fade_out_duration ∧ a.duration - a.fade_out_duration < audio_time then
        v2 * ((a.duration - audio_time) / a.fade_out_duration) else v2
    max 0 (min 1 v3)

/-- Modelled from the spec: `AudioElement.update_duration_for_scene` of the
BGM-aware `audio_element.py` is missing from the snapshot.  Per §4.5, Phase 2
"sets the element's `duration` to the Scene's current `duration`" (the call
site in `src/scene.py` already filters for loop-mode audio elements) and the
resolved scene duration "is also propagated into any `until_scene_end`
RepeatingAnimation owned by that element". -/
def AudioSt.updateDurationForScene (a : AudioSt) (scene_duration : ℚ) : AudioSt :=
  { a with duration := scene_duration
           animation_manager := a.animation_manager.resolveSceneDuration scene_duration }

/-- Modelled from the spec: `AudioElement.set_loop_until_scene_end` of the
BGM-aware `audio_element.py` (used by the BGM tests and `main.py`). -/
def AudioSt.setLoopUntilSceneEnd (a : AudioSt) (loop : Bool := true) : AudioSt :=
  { a with loop_until_scene_end := loop }


/-! ## Element state (`video_base.py` / `video_element.py`)

One structure carries the `VideoBase` fields the claims touch together with
the `VideoElement` extension (derived audio track, loop mode).  Purely
visual fields of `VideoBase` (padding, borders, crop, texture bookkeeping)
are outside every claim and are omitted. -/

structure Elem where
  start_time : ℚ
  duration : ℚ
  base_x : ℚ
  base_y : ℚ
  x : ℚ
  y : ℚ
  base_alpha : ℚ
  background_alpha : ℤ
  base_scale : ℚ
  scale : ℚ
  rotation : ℚ
  corner_radius : ℚ
  animation_manager : AnimMgr
  original_duration : ℚ
  loop_until_scene_end : Bool
  audio_element : Option AudioSt
  /-- Duration the media probe reports for the element's own file, used when
  the derived `AudioElement(self.video_path)` is created lazily
  (`_create_audio_element`). -/
  audio_probe : ℚ
deriving DecidableEq, Repr

/-- `VideoElement.__init__` after a successful `_load_video_info` probe of
duration `d`: `VideoBase.__init__` defaults, `duration` and
`original_duration` set to the probed length, audio track not yet created. -/
def Elem.init (d : ℚ) : Elem :=
  { start_time := 0
    duration := d
    base_x := 0, base_y := 0, x := 0, y := 0
    base_alpha := 255
    background_alpha := 255
    base_scale := 1, scale := 1
    rotation := 0
    corner_radius := 0
    animation_manager := AnimMgr.empty
    original_duration := d
    loop_until_scene_end := false
    audio_element := none
    audio_probe := d }

/-- `VideoBase.is_visible_at(time)`: `start_time <= time < start_time +
duration`. -/
def Elem.isVisibleAt (e : Elem) (time : ℚ) : Bool :=
  e.start_time ≤ time ∧ time < e.start_time + e.duration

/-- `VideoBase.start_at` (the base-class setter: assigns `start_time` only). -/
def Elem.startAtBase (e : Elem) (time : ℚ) : Elem := { e with start_time := time }

/-- `VideoBase.set_duration` (the base-class setter). -/
def Elem.setDurationBase (e : Elem) (d : ℚ) : Elem := { e with duration := d }

/-- `VideoBase.animate`: offsets the animation's start time by the element's
current start time, then appends it to the manager. -/
def Elem.animate (e : Elem) (p : PropName) (a : Anim) : Elem :=
  let entry : AnimEntry := .base { a with start_time := a.start_time + e.start_time }
  { e with animation_manager := e.animation_manager.addAnimation p entry }

/-- `VideoBase.animate_repeating`: wraps the base animation in a
`RepeatingAnimation`, offsets its start time by the element's current start
time, then appends it. -/
def Elem.animateRepeating (e : Elem) (p : PropName) (a : Anim)
    (repeat_count : ℤ := -1) (repeat_delay : ℚ := 0)
    (repeat_mode : RepeatMode := .restart) : Elem :=
  let r := RepAnim.mk' a repeat_count repeat_delay repeat_mode
  let entry : AnimEntry := .rep { r with start_time := r.start_time + e.start_time }
  { e with animation_manager := e.animation_manager.addAnimation p entry }

/-- `VideoBase.animate_until_scene_end`: when no `scene_duration` is given it
substitutes the element's current `duration` as a provisional value, builds
an infinite `until_scene_end` `RepeatingAnimation`, offsets its start time by
the element's current start time and appends it. -/
def Elem.animateUntilSceneEnd (e : Elem) (p : PropName) (a : Anim)
    (repeat_delay : ℚ := 0) (repeat_mode : RepeatMode := .restart)
    (scene_duration : Option ℚ := none) : Elem :=
  let sd := match scene_duration with
    | none => e.duration
    | some v => v
  let r := RepAnim.mk' a (-1) repeat_delay repeat_mode true (some sd)
  let entry : AnimEntry := .rep { r with start_time := r.start_time + e.start_time }
  { e with animation_manager := e.animation_manager.addAnimation p entry }

/-- The property dictionary built by `VideoBase.get_animated_properties`.
With a base value supplied for each key, `get_animated_value` always
returns a value, so `x`, `y`, `alpha`, `scale`, `rotation` and
`corner_radius` are always present (the `color` entry needs a `color`
attribute that plain elements do not have and is omitted). -/
structure AnimatedProps where
  x : ℚ
  y : ℚ
  alpha : ℤ
  scale : ℚ
  rotation : ℚ
  corner_radius : ℚ
deriving DecidableEq, Repr

/-- `VideoBase.get_animated_properties(time)`: sample each property through
the manager, using `base_x`, `base_y`, `base_alpha`, `base_scale` — but the
mutable `self.rotation` and `self.corner_radius` — as base values; alpha is
truncated to an integer and clamped to `[0, 255]`, scale and corner radius
are clamped below by 0. -/
def Elem.getAnimatedProperties (e : Elem) (time : ℚ) : AnimatedProps :=
  { x := e.animation_manager.getAnimatedValue .x time e.base_x
    y := e.animation_manager.getAnimatedValue .y time e.base_y
    alpha := max 0 (min 255 (pyInt (e.animation_manager.getAnimatedValue .alpha time e.base_alpha)))
    scale := max 0 (e.animation_manager.getAnimatedValue .scale time e.base_scale)
    rotation := e.animation_manager.getAnimatedValue .rotation time e.rotation
    corner_radius := max 0 (e.animation_manager.getAnimatedValue .corner_radius time e.corner_radius) }

/-- `VideoBase.update_animated_properties(time)`: writes the sampled
properties back into the element state (`x`, `y`, `background_alpha`,
`scale`, `rotation`, `corner_radius`). -/
def Elem.updateAnimatedProperties (e : Elem) (time : ℚ) : Elem :=
  let p := e.getAnimatedProperties time
  { e with x := p.x, y := p.y, background_alpha := p.alpha,
           scale := p.scale, rotation := p.rotation,
           corner_radius := p.corner_radius }

/-! ### `VideoElement` derived-audio synchronization (`video_element.py`) -/

/-- `VideoElement._sync_audio_timing`: re-applies the video's `start_time`
and `duration` to the audio track, if it exists. -/
def Elem.syncAudioTiming (e : Elem) : Elem :=
  match e.audio_element with
  | none => e
  | some a =>
      let a' : AudioSt := { a with start_time := e.start_time, duration := e.duration }
      { e with audio_element := some a' }

/-- `VideoElement._ensure_audio_element` / `_create_audio_element`: if the
audio track does not exist, create `AudioElement(self.video_path, volume=1.0)`
(its probe returns `audio_probe`) and immediately sync its timing to the
video's. -/
def Elem.ensureAudioElement (e : Elem) : Elem :=
  match e.audio_element with
  | some _ => e
  | none =>
      Elem.syncAudioTiming { e with audio_element := some (AudioSt.init e.audio_probe 1) }

/-- `VideoElement.start_at`: base setter, then ensure the audio track exists
and sync its timing. -/
def Elem.startAt (e : Elem) (t : ℚ) : Elem :=
  ((e.startAtBase t).ensureAudioElement).syncAudioTiming

/-- `VideoElement.set_duration`: base setter, then ensure the audio track
exists and sync its timing. -/
def Elem.setDuration (e : Elem) (d : ℚ) : Elem :=
  ((e.setDurationBase d).ensureAudioElement).syncAudioTiming

/-- Helper for the `set_volume` / fade / mute family: ensure the audio track
exists, then apply `f` to it. -/
def Elem.withAudio (e : Elem) (f : AudioSt → AudioSt) : Elem :=
  let e' := e.ensureAudioElement
  match e'.audio_element with
  | none => e'
  | some a => { e' with audio_element := some (f a) }

/-- `VideoElement.set_volume`: forwards to the audio track (creating it on
demand). -/
def Elem.setVolume (e : Elem) (v : ℚ) : Elem := e.withAudio (·.setVolume v)

/-- `VideoElement.set_audio_fade_in`. -/
def Elem.setAudioFadeIn (e : Elem) (d : ℚ) : Elem := e.withAudio (·.setFadeIn d)

/-- `VideoElement.set_audio_fade_out`. -/
def Elem.setAudioFadeOut (e : Elem) (d : ℚ) : Elem := e.withAudio (·.setFadeOut d)

/-- `VideoElement.mute_audio`. -/
def Elem.muteAudio (e : Elem) : Elem := e.withAudio (·.muteA)

/-- `VideoElement.unmute_audio`. -/
def Elem.unmuteAudio (e : Elem) : Elem := e.withAudio (·.unmuteA)

/-- `VideoElement.set_loop_until_scene_end`. -/
def Elem.setLoopUntilSceneEnd (e : Elem) (loop : Bool := true) : Elem :=
  { e with loop_until_scene_end := loop }

/-- `VideoElement.update_duration_for_scene(scene_duration)`: only in loop
mode and only for a positive scene duration ("シーンに他の要素がある場合のみ")
does it set `duration := scene_duration`, ensure the audio track exists and
forward the update to it (`hasattr` succeeds on the BGM-aware
`AudioElement`). -/
def Elem.updateDurationForScene (e : Elem) (scene_duration : ℚ) : Elem :=
  if e.loop_until_scene_end then
    if 0 < scene_duration then
      let e' := ({ e with duration := scene_duration }).ensureAudioElement
      match e'.audio_element with
      | none => e'
      | some a => { e' with audio_element := some (a.updateDurationForScene scene_duration) }
    else e
  else e

/-- Loop/cut regime of a loop-mode element (spec glossary): whether the
negotiated scene duration exceeds, falls short of, or matches the element's
natural length.  In `VideoElement.render` the loop regime is what triggers
the `video_time % original_duration` wrap. -/
inductive Regime where
  | loop | cut | exact
deriving DecidableEq, Repr

/-- Regime determined by a scene duration against a natural duration
(`update_duration_for_scene`'s three branches). -/
def regimeOf (scene_duration original_duration : ℚ) : Regime :=
  if original_duration < scene_duration then .loop
  else if scene_duration < original_duration then .cut
  else .exact

/-! ## Scene (`src/scene.py`, BGM-aware, and `scene.py`, plain) -/

/-- An element held by a `Scene`: the Python list mixes `AudioElement`
instances with the other `VideoBase` subclasses, and `Scene.add`
distinguishes them with `isinstance(element, AudioElement)`. -/
inductive SElem where
  | video (e : Elem)
  | audio (a : AudioSt)
deriving DecidableEq, Repr

/-- `element.start_time` of a scene element. -/
def SElem.start_time : SElem → ℚ
  | .video e => e.start_time
  | .audio a => a.start_time

/-- `element.duration` of a scene element. -/
def SElem.duration : SElem → ℚ
  | .video e => e.duration
  | .audio a => a.duration

/-- `element.original_duration` of a scene element. -/
def SElem.original_duration : SElem → ℚ
  | .video e => e.original_duration
  | .audio a => a.original_duration

/-- `element.loop_until_scene_end` of a scene element. -/
def SElem.loop_until_scene_end : SElem → Bool
  | .video e => e.loop_until_scene_end
  | .audio a => a.loop_until_scene_end

/-- The `isinstance(element, AudioElement) and element.loop_until_scene_end`
test of `src/scene.py`. -/
def SElem.isLoopAudio : SElem → Bool
  | .video _ => false
  | .audio a => a.loop_until_scene_end

/-- State of a `Scene`: ordered element list, `start_time`, `duration`
(both 0.0 at construction). -/
structure SceneSt where
  elements : List SElem
  start_time : ℚ
  duration : ℚ
deriving DecidableEq, Repr

/-- `Scene()`. -/
def SceneSt.init : SceneSt := { elements := [], start_time := 0, duration := 0 }

/-- Phase-2 fixup `Scene._update_bgm_durations` of `src/scene.py`: every
loop-mode `AudioElement` currently in the scene gets
`update_duration_for_scene(self.duration)`. -/
def SElem.bgmFixup (d : ℚ) : SElem → SElem
  | .video e => .video e
  | .audio a => if a.loop_until_scene_end then .audio (a.updateDurationForScene d) else .audio a

/-- `Scene.add` of the BGM-aware `src/scene.py`: append the element; unless
it is a loop-mode `AudioElement`, raise `duration` to
`max(duration, element.start_time + element.duration)`; then re-run the
Phase-2 BGM fixup over all elements. -/
def SceneSt.add (s : SceneSt) (el : SElem) : SceneSt :=
  let dur := if el.isLoopAudio then s.duration
    else max s.duration (el.start_time + el.duration)
  { elements := (s.elements ++ [el]).map (SElem.bgmFixup dur)
    start_time := s.start_time
    duration := dur }

/-- `Scene.add` of the plain top-level `scene.py`: every element, loop-mode
or not, raises `duration` to `max(duration, element.start_time +
element.duration)`; there is no Phase-2 fixup. -/
def SceneSt.addPlain (s : SceneSt) (el : SElem) : SceneSt :=
  { elements := s.elements ++ [el]
    start_time := s.start_time
    duration := max s.duration (el.start_time + el.duration) }

/-- A fresh scene after a sequence of `add` calls (`src/scene.py`). -/
def runAdds (els : List SElem) : SceneSt := els.foldl SceneSt.add SceneSt.init

/-- Duration formula read off the claim's words: "the maximum of
`element.start_time + element.duration` over the elements that are NOT in
loop-until-scene-end mode (0.0 for an empty scene); elements flagged
`loop_until_scene_end` contribute nothing". -/
def claimedSceneDuration (els : List SElem) : ℚ :=
  els.foldl (fun d el =>
    if el.loop_until_scene_end then d else max d (el.start_time + el.duration)) 0

/-- Duration the BGM-aware code actually computes: loop-mode **audio**
elements are skipped, every other element (loop-mode video elements
included) contributes `start_time + duration`. -/
def codeSceneDuration (els : List SElem) : ℚ :=
  els.foldl (fun d el =>
    if el.isLoopAudio then d else max d (el.start_time + el.duration)) 0

/-! ## MasterScene (`master_scene.py`) -/

/-- The per-scene timing data `MasterScene` reads (`scene.start_time`,
`scene.duration`). -/
structure SceneTiming where
  start_time : ℚ
  duration : ℚ
deriving DecidableEq, Repr

/-- State of a `MasterScene`: scene list, `fps`, `total_duration` (0.0 at
construction). -/
structure MasterSt where
  scenes : List SceneTiming
  fps : ℕ
  total_duration : ℚ
deriving DecidableEq, Repr

/-- `MasterScene(width, height, fps)`. -/
def MasterSt.init (fps : ℕ) : MasterSt :=
  { scenes := [], fps := fps, total_duration := 0 }

/-- `MasterScene.add(scene)`: append and raise `total_duration` to
`max(total_duration, scene.start_time + scene.duration)`. -/
def MasterSt.add (m : MasterSt) (s : SceneTiming) : MasterSt :=
  { m with scenes := m.scenes ++ [s]
           total_duration := max m.total_duration (s.start_time + s.duration) }

/-- `total_frames = int(self.total_duration * self.fps)` in
`MasterScene.render` (Python `int()` truncates toward zero). -/
def MasterSt.totalFrames (m : MasterSt) : ℕ :=
  (pyInt (m.total_duration * m.fps)).toNat

/-- The times at which the render loop evaluates the scene graph:
`current_time = frame_num / self.fps` for `frame_num in
range(total_frames)`. -/
def MasterSt.renderTimes (m : MasterSt) : List ℚ :=
  (List.range m.totalFrames).map (fun (k : ℕ) => (k : ℚ) / (m.fps : ℚ))

/-- A fresh master scene after a sequence of `add` calls. -/
def runMaster (fps : ℕ) (ss : List SceneTiming) : MasterSt :=
  ss.foldl MasterSt.add (MasterSt.init fps)

/-! ## Theorems -/

/-- **C7** — For every element and every time `t`, `is_visible_at(t)` returns
true iff `start_time ≤ t < start_time + duration`; consequently for every
positive `ε` within the window, visibility is false at `start_time − ε`,
true at `start_time + duration − ε` and false at `start_time + duration`. -/
theorem isVisibleAt_window_iff (e : Elem) (t : ℚ) :
    (e.isVisibleAt t = true ↔ e.start_time ≤ t ∧ t < e.start_time + e.duration) ∧
    (∀ ε : ℚ, 0 < ε → ε ≤ e.duration →
      e.isVisibleAt (e.start_time - ε) = false ∧
      e.isVisibleAt (e.start_time + e.duration - ε) = true ∧
      e.isVisibleAt (e.start_time + e.duration) = false) := by
  constructor
  · simp [Elem.isVisibleAt]
  · intro ε hε hεd
    refine ⟨?_, ?_, ?_⟩
    · simp only [Elem.isVisibleAt, decide_eq_false_iff_not, not_and, not_lt]
      intro h
      linarith
    · simp only [Elem.isVisibleAt, decide_eq_true_eq]
      constructor <;> linarith
    · simp only [Elem.isVisibleAt, decide_eq_false_iff_not, not_and, not_lt]
      intro _
      linarith

/-- Witness for **C7** at the concrete element `Elem.init 5`
(window `[0, 5)`) and `ε = 1`. -/
theorem isVisibleAt_window_iff_witness :
    (Elem.init 5).isVisibleAt ((Elem.init 5).start_time - 1) = false ∧
    (Elem.init 5).isVisibleAt ((Elem.init 5).start_time + (Elem.init 5).duration - 1) = true ∧
    (Elem.init 5).isVisibleAt ((Elem.init 5).start_time + (Elem.init 5).duration) = false :=
  (isVisibleAt_window_iff (Elem.init 5) 0).2 1 (by norm_num) (by norm_num [Elem.init])

/-- **C10** — For every `AudioElement` and audio-local time,
`get_effective_volume` returns a value in `[0, 1]`, and whenever `is_muted`
is true it returns exactly 0 regardless of volume and fade settings. -/
theorem getEffectiveVolume_bounds (a : AudioSt) (t : ℚ) :
    0 ≤ a.getEffectiveVolume t ∧ a.getEffectiveVolume t ≤ 1 ∧
    (a.is_muted = true → a.getEffectiveVolume t = 0) := by
  rcases h : a.is_muted with _ | _
  · simp only [AudioSt.getEffectiveVolume, h, Bool.false_eq_true, if_false]
    exact ⟨le_max_left _ _, max_le (by norm_num) (min_le_left _ _), fun hm => hm.elim⟩
  · simp [AudioSt.getEffectiveVolume, h]

/-- Witness for **C10**: a muted audio element reports effective volume 0. -/
theorem getEffectiveVolume_bounds_witness :
    ((AudioSt.init 10 1).muteA).getEffectiveVolume 3 = 0 :=
  (getEffectiveVolume_bounds ((AudioSt.init 10 1).muteA) 3).2.2 rfl

/-- `_sync_audio_timing` leaves the animation manager alone. -/
lemma syncAudioTiming_manager (e : Elem) :
    e.syncAudioTiming.animation_manager = e.animation_manager := by
  unfold Elem.syncAudioTiming
  rcases h : e.audio_element with _ | a <;> simp [h]

/-- `_ensure_audio_element` leaves the animation manager alone. -/
lemma ensureAudioElement_manager (e : Elem) :
    e.ensureAudioElement.animation_manager = e.animation_manager := by
  unfold Elem.ensureAudioElement
  rcases h : e.audio_element with _ | a
  · simp [h, syncAudioTiming_manager]
  · simp [h]

/-- `VideoElement.start_at` leaves the animation manager alone. -/
lemma startAt_manager (e : Elem) (t : ℚ) :
    (e.startAt t).animation_manager = e.animation_manager := by
  unfold Elem.startAt
  rw [syncAudioTiming_manager, ensureAudioElement_manager]
  rfl

/-- **C8** — Attaching an animation (`animate` / `animate_repeating` /
`animate_until_scene_end`) captures the element's start time at the moment
of attachment (the animation's `start_time` is offset by it exactly once),
and a later `start_at` on the element changes only the element's own
`start_time`, leaving every already-attached animation unchanged. -/
theorem animate_captures_attach_time (e : Elem) (p : PropName) (a : Anim)
    (rc : ℤ) (rd : ℚ) (rm : RepeatMode) (t' : ℚ) :
    ((e.animate p a).animation_manager.animations
      = e.animation_manager.animations
        ++ [(p, .base { a with start_time := a.start_time + e.start_time })]) ∧
    ((e.animateRepeating p a rc rd rm).animation_manager.animations
      = e.animation_manager.animations
        ++ [(p, .rep { RepAnim.mk' a rc rd rm with
              start_time := a.start_time + e.start_time })]) ∧
    ((e.animateUntilSceneEnd p a rd rm none).animation_manager.animations
      = e.animation_manager.animations
        ++ [(p, .rep { RepAnim.mk' a (-1) rd rm true (some e.duration) with
              start_time := a.start_time + e.start_time })]) ∧
    (((e.animate p a).startAtBase t').animation_manager
      = (e.animate p a).animation_manager) ∧
    (((e.animate p a).startAt t').animation_manager
      = (e.animate p a).animation_manager) ∧
    (((e.animate p a).startAtBase t').start_time = t') := by
  exact ⟨rfl, rfl, rfl, rfl, startAt_manager _ t', rfl⟩

/-- **C9** — For every `MasterScene`, `total_duration` is the maximum over
added scenes of `scene.start_time + scene.duration` (0.0 with no scene), and
the render loop evaluates exactly `N = ⌊total_duration × fps⌋` frames, frame
`k` at time `k / fps`. -/
theorem master_render_frame_times (fps : ℕ) (ss : List SceneTiming) :
    (runMaster fps ss).total_duration
      = ss.foldl (fun d s => max d (s.start_time + s.duration)) 0 ∧
    (runMaster fps ss).renderTimes.length
      = (⌊(runMaster fps ss).total_duration * fps⌋).toNat ∧
    (∀ k (h : k < (runMaster fps ss).renderTimes.length),
      (runMaster fps ss).renderTimes.get ⟨k, h⟩ = (k : ℚ) / fps) := by
  have hfold : ∀ (l : List SceneTiming) (m : MasterSt),
      (l.foldl MasterSt.add m).total_duration
        = l.foldl (fun d s => max d (s.start_time + s.duration)) m.total_duration := by
    intro l
    induction l with
    | nil => intro m; rfl
    | cons s l ih => intro m; exact ih (m.add s)
  have hfps : ∀ (l : List SceneTiming) (m : MasterSt),
      (l.foldl MasterSt.add m).fps = m.fps := by
    intro l
    induction l with
    | nil => intro m; rfl
    | cons s l ih => intro m; exact ih (m.add s)
  have hnn : ∀ (l : List SceneTiming) (d : ℚ), 0 ≤ d →
      0 ≤ l.foldl (fun d s => max d (s.start_time + s.duration)) d := by
    intro l
    induction l with
    | nil => intro d hd; exact hd
    | cons s l ih => intro d hd; exact ih _ (le_trans hd (le_max_left _ _))
  have htd : 0 ≤ (runMaster fps ss).total_duration := by
    rw [runMaster, hfold]
    exact hnn ss 0 le_rfl
  have hf : (runMaster fps ss).fps = fps := hfps ss (MasterSt.init fps)
  refine ⟨by rw [runMaster, hfold]; rfl, ?_, ?_⟩
  · have hpos : 0 ≤ (runMaster fps ss).total_duration * (fps : ℚ) :=
      mul_nonneg htd (by positivity)
    simp only [MasterSt.renderTimes, List.length_map, List.length_range,
      MasterSt.totalFrames, pyInt, hf]
    rw [if_pos hpos]
  · intro k h
    simp only [MasterSt.renderTimes, List.get_eq_getElem, List.getElem_map,
      List.getElem_range, hf]

/-- Witness for **C9**: a master scene at 30 fps holding one scene of
duration `1/2` renders exactly 15 frames, frame 3 at time `1/10`. -/
theorem master_render_frame_times_witness :
    (runMaster 30 [⟨0, 1/2⟩]).renderTimes.get
      ⟨3, by norm_num [runMaster, MasterSt.renderTimes, MasterSt.totalFrames,
            MasterSt.add, MasterSt.init, pyInt]⟩ = (3 : ℚ) / 30 :=
  (master_render_frame_times 30 [⟨0, 1/2⟩]).2.2 3
    (by norm_num [runMaster, MasterSt.renderTimes, MasterSt.totalFrames,
          MasterSt.add, MasterSt.init, pyInt])

/-! ### Scene duration negotiation (C2, C3, C4) -/

/-- The duration step `Scene.add` performs (`src/scene.py` Phase 1). -/
def addDurStep (d : ℚ) (el : SElem) : ℚ :=
  if el.isLoopAudio then d else max d (el.start_time + el.duration)

/-- The duration accumulated by a sequence of `add` calls is the Phase-1
fold regardless of the Phase-2 fixups (which never touch `duration`). -/
lemma foldl_add_duration (els : List SElem) (s : SceneSt) :
    (els.foldl SceneSt.add s).duration = els.foldl addDurStep s.duration := by
  induction els generalizing s with
  | nil => rfl
  | cons el els ih =>
      rw [List.foldl_cons, List.foldl_cons, ih]
      rfl

/-- Resolving a scene duration into a manager entry twice keeps only the
later value. -/
lemma resolveSceneDuration_entry_comp (d d' : ℚ) (en : AnimEntry) :
    (en.resolveSceneDuration d).resolveSceneDuration d' = en.resolveSceneDuration d' := by
  rcases en with a | r
  · rfl
  · by_cases h : r.until_scene_end = true <;>
      simp [AnimEntry.resolveSceneDuration, h]

/-- Resolving a scene duration into a manager twice keeps only the later
value. -/
lemma resolveSceneDuration_comp (m : AnimMgr) (d d' : ℚ) :
    (m.resolveSceneDuration d).resolveSceneDuration d' = m.resolveSceneDuration d' := by
  unfold AnimMgr.resolveSceneDuration
  simp only [List.map_map, AnimMgr.mk.injEq]
  exact List.map_congr_left fun pe _ => by
    show (pe.1, (pe.2.resolveSceneDuration d).resolveSceneDuration d') = _
    rw [resolveSceneDuration_entry_comp]

/-- A later Phase-2 fixup overrides an earlier one. -/
lemma bgmFixup_comp (d d' : ℚ) (el : SElem) :
    SElem.bgmFixup d' (SElem.bgmFixup d el) = SElem.bgmFixup d' el := by
  rcases el with e | a
  · rfl
  · by_cases h : a.loop_until_scene_end = true <;>
      simp [SElem.bgmFixup, h, AudioSt.updateDurationForScene,
        resolveSceneDuration_comp]

/-- After a sequence of `add` calls from a state whose elements are already
fixed up at its duration, the element list is the input list with every
loop-mode audio element fixed up at the final duration. -/
lemma foldl_add_elements (els : List SElem) (s : SceneSt)
    (hs : s.elements.map (SElem.bgmFixup s.duration) = s.elements) :
    (els.foldl SceneSt.add s).elements
      = (s.elements ++ els).map (SElem.bgmFixup (els.foldl SceneSt.add s).duration) := by
  induction els generalizing s with
  | nil => simpa using hs.symm
  | cons el els ih =>
      have hstep : (s.add el).elements.map (SElem.bgmFixup (s.add el).duration)
          = (s.add el).elements := by
        show ((s.elements ++ [el]).map _).map _ = (s.elements ++ [el]).map _
        rw [List.map_map]
        exact List.map_congr_left fun x _ => bgmFixup_comp _ _ x
      have hrun := ih (s.add el) hstep
      rw [List.foldl_cons, hrun]
      set D := (List.foldl SceneSt.add (s.add el) els).duration with hD
      set d₁ := (s.add el).duration with hd₁
      show List.map (SElem.bgmFixup D)
          (List.map (SElem.bgmFixup d₁) (s.elements ++ [el]) ++ els) = _
      calc List.map (SElem.bgmFixup D)
              (List.map (SElem.bgmFixup d₁) (s.elements ++ [el]) ++ els)
          = List.map (SElem.bgmFixup D) (List.map (SElem.bgmFixup d₁) (s.elements ++ [el]))
              ++ List.map (SElem.bgmFixup D) els := by
            rw [List.map_append]
        _ = List.map (SElem.bgmFixup D ∘ SElem.bgmFixup d₁) (s.elements ++ [el])
              ++ List.map (SElem.bgmFixup D) els := by
            rw [List.map_map]
        _ = List.map (SElem.bgmFixup D) (s.elements ++ [el])
              ++ List.map (SElem.bgmFixup D) els := by
            congr 1
            exact List.map_congr_left fun x _ => bgmFixup_comp _ _ x
        _ = List.map (SElem.bgmFixup D) (s.elements ++ [el] ++ els) :=
            (List.map_append _ _ _).symm
        _ = List.map (SElem.bgmFixup D) (s.elements ++ el :: els) :=
            congrArg (List.map _) (List.append_cons _ _ _).symm

/-- Element list of a fresh scene after a sequence of `add` calls. -/
lemma runAdds_elements (els : List SElem) :
    (runAdds els).elements = els.map (SElem.bgmFixup (runAdds els).duration) :=
  foldl_add_elements els SceneSt.init rfl

/-- The Phase-1 duration step right-commutes, so the fold is
insertion-order-insensitive. -/
lemma addDurStep_right_comm (d : ℚ) (x y : SElem) :
    addDurStep (addDurStep d x) y = addDurStep (addDurStep d y) x := by
  unfold addDurStep
  by_cases hx : x.isLoopAudio = true <;> by_cases hy : y.isLoopAudio = true <;>
    simp [hx, hy, sup_right_comm]

/-- The Phase-1 duration fold over a permuted element list is unchanged. -/
lemma foldl_addDurStep_perm {l₁ l₂ : List SElem} (h : l₁.Perm l₂) :
    ∀ d : ℚ, l₁.foldl addDurStep d = l₂.foldl addDurStep d := by
  induction h with
  | nil => intro d; rfl
  | cons x _ ih => intro d; rw [List.foldl_cons, List.foldl_cons, ih]
  | swap x y l =>
      intro d
      rw [List.foldl_cons, List.foldl_cons, List.foldl_cons, List.foldl_cons,
        addDurStep_right_comm]
  | trans _ _ ih₁ ih₂ => intro d; rw [ih₁, ih₂]

/-- A concrete loop-mode video element: `VideoElement` of natural length 5
with `set_loop_until_scene_end(True)` (the configuration of the background
video in `tests/basic.py`). -/
def loopVideoFive : SElem := .video ((Elem.init 5).setLoopUntilSceneEnd true)

/-- A loop-mode BGM audio element of natural length 10
(`AudioElement(...).set_loop_until_scene_end(True)`). -/
def bgmTen : SElem := .audio ((AudioSt.init 10 1).setLoopUntilSceneEnd true)

/-- A video element of natural length 15 starting at 0. -/
def vidFifteen : SElem := .video (Elem.init 15)

/-- **C2 (counterexample)** — the claim says every element flagged
`loop_until_scene_end` contributes nothing to `scene.duration`, but
`src/scene.py` skips only loop-mode **audio** elements: a loop-mode video
element of length 5 drives the scene duration to 5, while the claimed
formula gives 0. -/
theorem scene_duration_claim_counterexample :
    (runAdds [loopVideoFive]).duration = 5 ∧
    claimedSceneDuration [loopVideoFive] = 0 ∧
    (5 : ℚ) ≠ 0 := by
  refine ⟨?_, ?_, by norm_num⟩
  · show (SceneSt.init.add loopVideoFive).duration = 5
    simp [SceneSt.add, SceneSt.init, loopVideoFive, SElem.isLoopAudio,
      SElem.start_time, SElem.duration, Elem.setLoopUntilSceneEnd, Elem.init]
  · simp [claimedSceneDuration, loopVideoFive, SElem.loop_until_scene_end,
      Elem.setLoopUntilSceneEnd, Elem.init]

/-- **C2 (amended)** — after any sequence of `add(element)` calls,
`scene.duration` equals the maximum of `element.start_time +
element.duration` over the elements that are **not loop-mode audio
elements** (0.0 for an empty scene); loop-mode audio elements contribute
nothing, but loop-mode video elements do contribute. -/
theorem scene_duration_formula (els : List SElem) :
    (runAdds els).duration = codeSceneDuration els := by
  rw [runAdds, foldl_add_duration]
  rfl

/-- **C3** — scene duration negotiation is insensitive to insertion order:
two permutations of the same element list give the same final
`scene.duration`, final element lists that are permutations of each other
(each element carrying the same final duration), and the same loop/cut
regime for every element. -/
theorem scene_negotiation_order_insensitive (els els' : List SElem)
    (h : els.Perm els') :
    (runAdds els).duration = (runAdds els').duration ∧
    (runAdds els).elements.Perm (runAdds els').elements ∧
    (∀ el : SElem,
      SElem.bgmFixup (runAdds els).duration el
        = SElem.bgmFixup (runAdds els').duration el ∧
      regimeOf (runAdds els).duration el.original_duration
        = regimeOf (runAdds els').duration el.original_duration) := by
  have hd : (runAdds els).duration = (runAdds els').duration := by
    rw [runAdds, runAdds, foldl_add_duration, foldl_add_duration]
    exact foldl_addDurStep_perm h _
  refine ⟨hd, ?_, fun el => ⟨by rw [hd], by rw [hd]⟩⟩
  rw [runAdds_elements, runAdds_elements, hd]
  exact h.map _

/-- Witness for **C3**: adding a loop-mode BGM element before or after the
15-second video gives the same final scene duration and (up to order) the
same final element states. -/
theorem scene_negotiation_order_insensitive_witness :
    (runAdds [bgmTen, vidFifteen]).duration
      = (runAdds [vidFifteen, bgmTen]).duration ∧
    (runAdds [bgmTen, vidFifteen]).elements.Perm
      (runAdds [vidFifteen, bgmTen]).elements :=
  ⟨(scene_negotiation_order_insensitive [bgmTen, vidFifteen]
      [vidFifteen, bgmTen] (List.Perm.swap _ _ _)).1,
   (scene_negotiation_order_insensitive [bgmTen, vidFifteen]
      [vidFifteen, bgmTen] (List.Perm.swap _ _ _)).2.1⟩

/-- `_ensure_audio_element` leaves the element's own timing fields alone. -/
lemma ensureAudioElement_duration (e : Elem) :
    e.ensureAudioElement.duration = e.duration := by
  unfold Elem.ensureAudioElement
  rcases h : e.audio_element with _ | a <;> simp [h, Elem.syncAudioTiming]

/-- `_ensure_audio_element` leaves `original_duration` alone. -/
lemma ensureAudioElement_original (e : Elem) :
    e.ensureAudioElement.original_duration = e.original_duration := by
  unfold Elem.ensureAudioElement
  rcases h : e.audio_element with _ | a <;> simp [h, Elem.syncAudioTiming]

/-- `_ensure_audio_element` leaves `start_time` alone. -/
lemma ensureAudioElement_start (e : Elem) :
    e.ensureAudioElement.start_time = e.start_time := by
  unfold Elem.ensureAudioElement
  rcases h : e.audio_element with _ | a <;> simp [h, Elem.syncAudioTiming]

/-- The `loop` branch of `regimeOf`. -/
lemma regimeOf_loop_iff (sd od : ℚ) : regimeOf sd od = .loop ↔ od < sd := by
  unfold regimeOf
  split_ifs with h1 h2 <;> simp [h1]

/-- The `cut` branch of `regimeOf`. -/
lemma regimeOf_cut_iff (sd od : ℚ) : regimeOf sd od = .cut ↔ sd < od := by
  unfold regimeOf
  split_ifs with h1 h2
  · exact ⟨fun hh => hh.elim, fun hh => absurd hh (by linarith)⟩
  · simp [h2]
  · exact ⟨fun hh => hh.elim, fun hh => absurd hh h2⟩

/-- A concrete loop-mode video element of natural length 10. -/
def loopVidTen : Elem := (Elem.init 10).setLoopUntilSceneEnd true

/-- **C4 (counterexample)** — the claim says `update_duration_for_scene`
sets the element's duration to `scene_duration` for every loop-mode
element, but `video_element.py` guards the update with
`scene_duration > 0`: a loop-mode element of natural length 10 updated with
scene duration 0 keeps duration 10 instead of the claimed 0 (and the claimed
cut regime is never entered). -/
theorem updateDurationForScene_zero_counterexample :
    (loopVidTen.updateDurationForScene 0).duration = 10 ∧ (10 : ℚ) ≠ 0 := by
  constructor
  · simp [Elem.updateDurationForScene, loopVidTen, Elem.setLoopUntilSceneEnd,
      Elem.init]
  · norm_num

/-- **C4 (amended)** — for every loop-until-scene-end element and every
**positive** scene duration, `update_duration_for_scene(scene_duration)`
sets the element's duration to `scene_duration` (leaving
`original_duration` unchanged), the loop regime holds exactly when
`scene_duration > original_duration` and the cut regime exactly when
`scene_duration < original_duration`; at `scene_duration = 0` the duration
is left unchanged.  The BGM example holds: a loop-mode BGM of natural
length 10 in a scene whose non-loop elements end at 15 ends with
`scene.duration = 15`, BGM duration 15, loop regime. -/
theorem updateDurationForScene_spec (e : Elem) (sd : ℚ)
    (hl : e.loop_until_scene_end = true) (hsd : 0 < sd) :
    ((e.updateDurationForScene sd).duration = sd ∧
     (e.updateDurationForScene sd).original_duration = e.original_duration ∧
     (regimeOf sd e.original_duration = .loop ↔ e.original_duration < sd) ∧
     (regimeOf sd e.original_duration = .cut ↔ sd < e.original_duration)) ∧
    ((runAdds [bgmTen, vidFifteen]).duration = 15 ∧
     (runAdds [bgmTen, vidFifteen]).elements.map SElem.duration = [15, 15] ∧
     regimeOf 15 10 = .loop) := by
  constructor
  · unfold Elem.updateDurationForScene
    rw [if_pos hl, if_pos hsd]
    rcases h : (({ e with duration := sd } : Elem).ensureAudioElement).audio_element
        with _ | a
    · simp only [h]
      exact ⟨ensureAudioElement_duration _, ensureAudioElement_original _,
        regimeOf_loop_iff sd e.original_duration, regimeOf_cut_iff sd e.original_duration⟩
    · simp only [h]
      exact ⟨ensureAudioElement_duration _, ensureAudioElement_original _,
        regimeOf_loop_iff sd e.original_duration, regimeOf_cut_iff sd e.original_duration⟩
  · refine ⟨?_, ?_, ?_⟩
    · show (SceneSt.add (SceneSt.add SceneSt.init bgmTen) vidFifteen).duration = 15
      simp [SceneSt.add, SceneSt.init, bgmTen, vidFifteen, SElem.isLoopAudio,
        SElem.start_time, SElem.duration, AudioSt.init,
        AudioSt.setLoopUntilSceneEnd, Elem.init]
    · show (List.map SElem.duration
          (SceneSt.add (SceneSt.add SceneSt.init bgmTen) vidFifteen).elements) = [15, 15]
      simp [SceneSt.add, SceneSt.init, bgmTen, vidFifteen, SElem.isLoopAudio,
        SElem.start_time, SElem.duration, SElem.bgmFixup, AudioSt.init,
        AudioSt.setLoopUntilSceneEnd, AudioSt.updateDurationForScene, Elem.init]
    · rw [regimeOf_loop_iff]
      norm_num

/-- Witness for **C4**: the loop-mode element of length 10 updated with
scene duration 15 ends with duration 15. -/
theorem updateDurationForScene_spec_witness :
    (loopVidTen.updateDurationForScene 15).duration = 15 :=
  (updateDurationForScene_spec loopVidTen 15 rfl (by norm_num)).1.1

/-! ### Derived audio track synchronization (C5) -/

/-- The public mutators of `VideoElement` that touch timing or the derived
audio track (plus the Scene Phase-2 entry point). -/
inductive VOp where
  | startAt (t : ℚ)
  | setDuration (d : ℚ)
  | setVolume (v : ℚ)
  | setAudioFadeIn (d : ℚ)
  | setAudioFadeOut (d : ℚ)
  | muteAudio
  | unmuteAudio
  | setLoopUntilSceneEnd (b : Bool)
  | updateDurationForScene (sd : ℚ)
deriving DecidableEq, Repr

/-- Apply one mutator. -/
def VOp.apply : VOp → Elem → Elem
  | .startAt t, e => e.startAt t
  | .setDuration d, e => e.setDuration d
  | .setVolume v, e => e.setVolume v
  | .setAudioFadeIn d, e => e.setAudioFadeIn d
  | .setAudioFadeOut d, e => e.setAudioFadeOut d
  | .muteAudio, e => e.muteAudio
  | .unmuteAudio, e => e.unmuteAudio
  | .setLoopUntilSceneEnd b, e => e.setLoopUntilSceneEnd b
  | .updateDurationForScene sd, e => e.updateDurationForScene sd

/-- The §4.6 invariant: the derived audio track does not exist yet, or it
mirrors the video's `start_time` and `duration`. -/
def audioSynced (e : Elem) : Prop :=
  match e.audio_element with
  | none => True
  | some a => a.start_time = e.start_time ∧ a.duration = e.duration

/-- `_sync_audio_timing` establishes the invariant outright. -/
lemma audioSynced_sync (e : Elem) : audioSynced e.syncAudioTiming := by
  unfold Elem.syncAudioTiming audioSynced
  rcases hA : e.audio_element with _ | a <;> simp [hA]

/-- `_ensure_audio_element` preserves the invariant (and establishes it when
it creates the track). -/
lemma audioSynced_ensure (e : Elem) (h : audioSynced e) :
    audioSynced e.ensureAudioElement := by
  unfold Elem.ensureAudioElement
  rcases hA : e.audio_element with _ | a
  · simp only [hA]
    exact audioSynced_sync _
  · simp only [hA]
    exact h

/-- When the track already exists, `_ensure_audio_element` is the
identity. -/
lemma ensureAudioElement_of_some (e : Elem) (a : AudioSt)
    (h : e.audio_element = some a) : e.ensureAudioElement = e := by
  unfold Elem.ensureAudioElement
  rw [h]

/-- When the track is absent, `_ensure_audio_element` yields a track whose
timing mirrors the element's. -/
lemma ensureAudioElement_of_none (e : Elem) (h : e.audio_element = none) :
    e.ensureAudioElement.audio_element
      = some { (AudioSt.init e.audio_probe 1) with
          start_time := e.start_time, duration := e.duration } := by
  unfold Elem.ensureAudioElement
  rw [h]
  rfl

/-- `VideoElement.start_at` re-establishes the invariant. -/
lemma audioSynced_startAt (e : Elem) (t : ℚ) : audioSynced (e.startAt t) :=
  audioSynced_sync _

/-- `VideoElement.set_duration` re-establishes the invariant. -/
lemma audioSynced_setDuration (e : Elem) (d : ℚ) : audioSynced (e.setDuration d) :=
  audioSynced_sync _

/-- Forwarded audio setters that do not touch the track's timing preserve
the invariant. -/
lemma audioSynced_withAudio (e : Elem) (f : AudioSt → AudioSt)
    (hf : ∀ a, (f a).start_time = a.start_time ∧ (f a).duration = a.duration)
    (h : audioSynced e) : audioSynced (e.withAudio f) := by
  have h' := audioSynced_ensure e h
  unfold Elem.withAudio
  rcases hA : e.ensureAudioElement.audio_element with _ | a
  · simp only [hA]
    exact h'
  · simp only [hA]
    unfold audioSynced at h' ⊢
    rw [hA] at h'
    simp only []
    exact ⟨(hf a).1.trans h'.1, (hf a).2.trans h'.2⟩

/-- If every pre-existing audio track starts with the element, so does the
track present after `_ensure_audio_element`. -/
lemma ensureAudioElement_audio_start (x : Elem)
    (hx : ∀ a, x.audio_element = some a → a.start_time = x.start_time) :
    ∀ a, x.ensureAudioElement.audio_element = some a → a.start_time = x.start_time := by
  intro a ha
  rcases h0 : x.audio_element with _ | a0
  · rw [ensureAudioElement_of_none x h0] at ha
    injection ha with ha'
    rw [← ha']
  · rw [ensureAudioElement_of_some x a0 h0] at ha
    exact hx a ha

/-- `update_duration_for_scene` preserves the invariant: when it changes the
video's duration it forwards the same duration to the audio track. -/
lemma audioSynced_updateDurationForScene (e : Elem) (sd : ℚ)
    (h : audioSynced e) : audioSynced (e.updateDurationForScene sd) := by
  unfold Elem.updateDurationForScene
  by_cases hl : e.loop_until_scene_end = true
  case neg => rw [if_neg hl]; exact h
  by_cases hsd : 0 < sd
  case neg => rw [if_pos hl, if_neg hsd]; exact h
  rw [if_pos hl, if_pos hsd]
  have hxstart : ∀ a, ({ e with duration := sd } : Elem).audio_element = some a →
      a.start_time = ({ e with duration := sd } : Elem).start_time := by
    intro a ha
    unfold audioSynced at h
    rw [show e.audio_element = some a from ha] at h
    exact h.1
  have hstart' := ensureAudioElement_audio_start _ hxstart
  rcases hA : (({ e with duration := sd } : Elem).ensureAudioElement).audio_element
      with _ | a
  · simp only [hA]
    unfold audioSynced
    rw [hA]
    trivial
  · simp only [hA]
    unfold audioSynced
    refine ⟨?_, ?_⟩
    · show (a.updateDurationForScene sd).start_time = _
      rw [AudioSt.updateDurationForScene]
      show a.start_time = ({ e with duration := sd } : Elem).ensureAudioElement.start_time
      rw [ensureAudioElement_start]
      exact hstart' a hA
    · show (a.updateDurationForScene sd).duration = _
      rw [AudioSt.updateDurationForScene]
      show sd = ({ e with duration := sd } : Elem).ensureAudioElement.duration
      rw [ensureAudioElement_duration]

/-- Every mutator preserves the §4.6 invariant. -/
lemma audioSynced_apply (op : VOp) (e : Elem) (h : audioSynced e) :
    audioSynced (op.apply e) := by
  cases op with
  | startAt t => exact audioSynced_startAt e t
  | setDuration d => exact audioSynced_setDuration e d
  | setVolume v =>
      exact audioSynced_withAudio e _ (fun a => ⟨rfl, rfl⟩) h
  | setAudioFadeIn d =>
      exact audioSynced_withAudio e _ (fun a => ⟨rfl, rfl⟩) h
  | setAudioFadeOut d =>
      exact audioSynced_withAudio e _ (fun a => ⟨rfl, rfl⟩) h
  | muteAudio => exact audioSynced_withAudio e _ (fun a => ⟨rfl, rfl⟩) h
  | unmuteAudio => exact audioSynced_withAudio e _ (fun a => ⟨rfl, rfl⟩) h
  | setLoopUntilSceneEnd b =>
      unfold audioSynced at h ⊢
      exact h
  | updateDurationForScene sd => exact audioSynced_updateDurationForScene e sd h

/-- The invariant is preserved by any sequence of mutators. -/
lemma audioSynced_foldl (ops : List VOp) (e : Elem) (h : audioSynced e) :
    audioSynced (ops.foldl (fun e op => op.apply e) e) := by
  induction ops generalizing e with
  | nil => exact h
  | cons op ops ih => exact ih (op.apply e) (audioSynced_apply op e h)

/-- **C5** — for every video element and any interleaving of `start_at`,
`set_duration`, `set_volume`, fade, mute and Scene Phase-2 duration updates,
at every observation point either the derived audio track does not exist yet
or it mirrors the video's `start_time` and `duration`; and
`start_at(5).set_duration(10)` followed by `set_volume(0.5)` leaves the
derived track at `start_time = 5`, `duration = 10`, `volume = 0.5` even
though the track did not exist when the timing setters first ran. -/
theorem derived_audio_track_mirrors_video (ops : List VOp) (d : ℚ) :
    audioSynced (ops.foldl (fun e op => op.apply e) (Elem.init d)) ∧
    ((((Elem.init 20).startAt 5).setDuration 10).setVolume (1/2)).audio_element
      = some { start_time := 5, duration := 10, volume := 1/2,
               original_volume := 1/2, fade_in_duration := 0,
               fade_out_duration := 0, is_muted := false,
               loop_until_scene_end := false, original_duration := 20,
               animation_manager := AnimMgr.empty } := by
  constructor
  · refine audioSynced_foldl ops (Elem.init d) ?_
    unfold audioSynced Elem.init
    simp
  · simp only [Elem.init, Elem.startAt, Elem.setDuration, Elem.setVolume,
      Elem.startAtBase, Elem.setDurationBase, Elem.withAudio,
      Elem.ensureAudioElement, Elem.syncAudioTiming, AudioSt.init,
      AudioSt.setVolume]
    norm_num

/-! ### Until-scene-end animations (C6) and evaluation purity (C1) -/

/-- A unit pulse animation (`from 1 to 2 over 1s`, no delay). -/
def pulseAnim : Anim :=
  { start_time := 0, delay := 0, duration := 1, from_value := 1, to_value := 2 }

/-- An element of duration 7 with an `animate_until_scene_end` animation
attached without an explicit `scene_duration`. -/
def untilEndElem : Elem :=
  (Elem.init 7).animateUntilSceneEnd .scale pulseAnim 0 .restart none

/-- The repeating animation the attachment above is expected to store: the
provisional `scene_duration` is the element's duration 7, already
resolved. -/
def untilEndExpected : RepAnim :=
  { base := pulseAnim
    repeat_count := -1
    repeat_delay := 0
    repeat_mode := .restart
    until_scene_end := true
    scene_duration := some 7
    start_time := 0 }

/-- **C6 (counterexample)** — the claim says `scene_duration` may be
unresolved (null) at construction and is filled in later by the owning
Scene; but `animate_until_scene_end` substitutes the element's current
duration whenever no value is supplied (here 7), so the attached animation
carries `some 7`, not `none` — and adding the element to a scene (even one
whose other elements stretch it to 15) leaves the element, and hence the
animation's `scene_duration`, untouched. -/
theorem animate_until_scene_end_counterexample :
    untilEndElem.animation_manager.animations
      = [(.scale, .rep untilEndExpected)] ∧
    untilEndExpected.scene_duration = some 7 ∧
    (some (7 : ℚ) ≠ none) ∧
    (runAdds [.video untilEndElem, vidFifteen]).elements
      = [.video untilEndElem, vidFifteen] := by
  refine ⟨?_, rfl, by simp, ?_⟩
  · norm_num [untilEndElem, untilEndExpected, Elem.animateUntilSceneEnd,
      Elem.init, RepAnim.mk', AnimMgr.addAnimation, AnimMgr.empty, pulseAnim]
  · show (SceneSt.add (SceneSt.add SceneSt.init (.video untilEndElem)) vidFifteen).elements
        = [.video untilEndElem, vidFifteen]
    simp [SceneSt.add, SceneSt.init, SElem.isLoopAudio, SElem.bgmFixup,
      vidFifteen]

/-- **C6 (amended)** — `animate_until_scene_end` always resolves
`scene_duration` at attachment time: when none is supplied it substitutes
the element's current duration as a provisional value, so the attached
animation always carries a concrete `scene_duration`, never `none`.  What
happens afterwards depends on the element kind: the Scene's Phase-2 fixup
never touches video elements (their animations keep the provisional value),
while for a loop-mode audio element `update_duration_for_scene` propagates
the resolved scene duration into every `until_scene_end` animation the
element owns, overwriting the provisional value (spec §4.5).  Only a
`RepeatingAnimation` whose `scene_duration` is still unresolved reports
itself inactive when queried. -/
theorem animate_until_scene_end_resolved (e : Elem) (p : PropName) (a : Anim)
    (rd : ℚ) (rm : RepeatMode) (t sd : ℚ) (r : RepAnim) (au : AudioSt) (sd' : ℚ) :
    ((e.animateUntilSceneEnd p a rd rm none).animation_manager.animations
      = e.animation_manager.animations
        ++ [(p, .rep { RepAnim.mk' a (-1) rd rm true (some e.duration) with
              start_time := a.start_time + e.start_time })]) ∧
    ((e.animateUntilSceneEnd p a rd rm (some sd)).animation_manager.animations
      = e.animation_manager.animations
        ++ [(p, .rep { RepAnim.mk' a (-1) rd rm true (some sd) with
              start_time := a.start_time + e.start_time })]) ∧
    (∀ d : ℚ, SElem.bgmFixup d (.video e) = .video e) ∧
    ((au.updateDurationForScene sd').animation_manager.animations
      = au.animation_manager.animations.map
          (fun pe => (pe.1, pe.2.resolveSceneDuration sd'))) ∧
    (r.until_scene_end = true →
      (AnimEntry.rep r).resolveSceneDuration sd'
        = .rep { r with scene_duration := some sd' }) ∧
    (r.until_scene_end = true → r.scene_duration = none → r.started t = false) := by
  refine ⟨rfl, rfl, fun d => rfl, rfl, ?_, ?_⟩
  · intro h1
    simp only [AnimEntry.resolveSceneDuration]
    rw [if_pos h1]
  · intro h1 h2
    unfold RepAnim.started
    rw [if_pos ⟨h1, h2⟩]

/-- Witness for **C6**: resolving scene duration 15 into an
`until_scene_end` animation provisionally holding 7 overwrites it with 15,
and a directly-constructed unresolved `until_scene_end` animation reports
itself inactive at `t = 5`. -/
theorem animate_until_scene_end_resolved_witness :
    ((AnimEntry.rep (RepAnim.mk' pulseAnim (-1) 0 .restart true (some 7))).resolveSceneDuration 15
      = .rep { RepAnim.mk' pulseAnim (-1) 0 .restart true (some 7) with
          scene_duration := some 15 }) ∧
    (RepAnim.mk' pulseAnim (-1) 0 .restart true none).started 5 = false :=
  ⟨(animate_until_scene_end_resolved (Elem.init 7) .scale pulseAnim 0 .restart 5 3
      (RepAnim.mk' pulseAnim (-1) 0 .restart true (some 7)) (AudioSt.init 10 1) 15).2.2.2.2.1 rfl,
   (animate_until_scene_end_resolved (Elem.init 7) .scale pulseAnim 0 .restart 5 3
      (RepAnim.mk' pulseAnim (-1) 0 .restart true none) (AudioSt.init 10 1) 15).2.2.2.2.2 rfl rfl⟩

/-- A rotation animation from 0° to 180° over the window `[2, 3)`. -/
def rotAnim : Anim :=
  { start_time := 2, delay := 0, duration := 1, from_value := 0, to_value := 180 }

/-- An element of duration 10 (start time 0) with `rotAnim` attached to
`rotation`. -/
def rotElem : Elem := (Elem.init 10).animate .rotation rotAnim

/-- The rotation slot of the property dictionary samples the manager with
the **mutable** `rotation` field as base value. -/
lemma getAnimatedProperties_rotation (e : Elem) (t : ℚ) :
    (e.getAnimatedProperties t).rotation
      = e.animation_manager.getAnimatedValue .rotation t e.rotation := rfl

/-- The write-back stores the sampled rotation into the `rotation` field. -/
lemma updateAnimatedProperties_rotation (e : Elem) (t : ℚ) :
    (e.updateAnimatedProperties t).rotation
      = e.animation_manager.getAnimatedValue .rotation t e.rotation := rfl

/-- The write-back leaves the animation manager unchanged. -/
lemma updateAnimatedProperties_manager (e : Elem) (t : ℚ) :
    (e.updateAnimatedProperties t).animation_manager = e.animation_manager := rfl

/-- At `t = 1` the rotation animation of `rotElem` has not started, so the
manager returns the base value unchanged. -/
lemma rotElem_value_at_one (b : ℚ) :
    rotElem.animation_manager.getAnimatedValue .rotation 1 b = b := by
  norm_num [AnimMgr.getAnimatedValue, rotElem, Elem.animate, Elem.init,
    AnimMgr.addAnimation, AnimMgr.empty, AnimEntry.started, Anim.started,
    rotAnim, List.filter, List.find?]

/-- At `t = 5/2` the rotation animation of `rotElem` is active and samples
90°. -/
lemma rotElem_value_at_half (b : ℚ) :
    rotElem.animation_manager.getAnimatedValue .rotation (5/2) b = 90 := by
  norm_num [AnimMgr.getAnimatedValue, rotElem, Elem.animate, Elem.init,
    AnimMgr.addAnimation, AnimMgr.empty, AnimEntry.started, Anim.started,
    AnimEntry.valueAt, Anim.valueAt, Anim.progress, rotAnim,
    List.filter, List.find?, min_def, max_def]

/-- **C1 (code bug)** — evaluation is not a pure function of `t`:
`get_animated_properties` reads the **mutable** `self.rotation` (not a
separate base field) as the rotation base value, and
`update_animated_properties` writes the animated value back into it.
Evaluating the element fresh at `t = 1` gives rotation 0, but evaluating at
`t = 2.5` first (which writes 90 back) and then at `t = 1` gives 90. -/
theorem update_animated_properties_not_pure :
    ((rotElem.getAnimatedProperties 1).rotation = 0) ∧
    ((rotElem.updateAnimatedProperties (5/2)).rotation = 90) ∧
    (((rotElem.updateAnimatedProperties (5/2)).getAnimatedProperties 1).rotation = 90) ∧
    ((90 : ℚ) ≠ 0) := by
  have hbase : rotElem.rotation = 0 := rfl
  refine ⟨?_, ?_, ?_, by norm_num⟩
  · rw [getAnimatedProperties_rotation, hbase, rotElem_value_at_one]
  · rw [updateAnimatedProperties_rotation, hbase, rotElem_value_at_half]
  · rw [getAnimatedProperties_rotation, updateAnimatedProperties_manager,
      updateAnimatedProperties_rotation, hbase, rotElem_value_at_half,
      rotElem_value_at_one]

end FrameKit
